import Mathlib

/-!
Verification of `src/func.py` (OCI function implementing HTTP Basic Auth
validation against a configured set of username/password pairs).

The embedding models Python values that can appear in this program:
JSON-decoded data is represented by `JValue`; the store
`BasicAuth.valid_users` (a Python `dict`) is an association list of
`JValue` pairs in insertion order with update-in-place semantics.
Python library functions used by the program (`json.loads`,
`base64.b64decode`, `bytes.decode("utf-8")`, `str.split(":", 1)`,
`str.startswith`, `str.strip`) are embedded as executable Lean functions.
Exceptions are modelled with `Option`/`Except`; every `except` clause in
the source corresponds to the error branch of the modelled computation.

Model notes (deliberate simplifications that no claim depends on):
the JSON reader covers null, booleans, integer numerals, strings with the
common escapes, arrays and objects (floats, `\u` escapes and duplicate
object keys are not modelled); `pyEq` implements Python `==` on scalars,
including the `True == 1` identification, and is never applied to two
container values by this program.
-/

inductive JValue where
  | jnull
  | jbool (b : Bool)
  | jnum (n : Int)
  | jstr (s : String)
  | jarr (elems : List JValue)
  | jobj (fields : List (String × JValue))

/-- Truthiness of a Python value, as used by `if username and password:`
and `if not token`. -/
def pyTruthy : JValue → Bool
  | .jnull => false
  | .jbool b => b
  | .jnum n => !(n == 0)
  | .jstr s => !s.data.isEmpty
  | .jarr xs => !xs.isEmpty
  | .jobj fs => !fs.isEmpty

/-- Python equality on the scalar values this program compares
(`username in valid_users`, `valid_users[username] == password`).
In this program at least one side is always a string or another scalar,
so container/container comparison never occurs and returns `false` here. -/
def pyEq : JValue → JValue → Bool
  | .jnull, .jnull => true
  | .jbool a, .jbool b => a == b
  | .jbool a, .jnum b => (if a then (1 : Int) else 0) == b
  | .jnum a, .jbool b => a == (if b then (1 : Int) else 0)
  | .jnum a, .jnum b => a == b
  | .jstr a, .jstr b => a == b
  | _, _ => false

/-- Hashability of a Python value: lists and dicts are unhashable, so
using one as a dict key raises `TypeError`. -/
def pyHashable : JValue → Bool
  | .jarr _ => false
  | .jobj _ => false
  | _ => true

/-- The `valid_users` dict: key/value pairs in insertion order. -/
abbrev PyDict : Type := List (JValue × JValue)

/-- Python dict assignment `d[k] = v`: update the first (and only) entry
with an equal key in place, keeping the original key object, else append. -/
def dictInsert : PyDict → JValue → JValue → PyDict
  | [], k, v => [(k, v)]
  | kv :: rest, k, v =>
    if pyEq kv.1 k then (kv.1, v) :: rest else kv :: dictInsert rest k v

/-- Python dict lookup: `d[k]` for a present key, `none` when
`k not in d`. -/
def dictFind : PyDict → JValue → Option JValue
  | [], _ => none
  | kv :: rest, k => if pyEq kv.1 k then some kv.2 else dictFind rest k

/-- Python `str.strip()` on the ASCII whitespace characters. -/
def pyIsSpace (c : Char) : Bool :=
  c = ' ' || c = '\t' || c = '\n' || c = '\r' || c = '\x0b' || c = '\x0c'

def pyStrip (s : String) : String :=
  String.mk (((s.data.dropWhile pyIsSpace).reverse.dropWhile pyIsSpace).reverse)

/-- Python `str.startswith(pre)`. -/
def strStartsWith (s pre : String) : Bool :=
  pre.data.isPrefixOf s.data

/-!
JSON reading (`json.loads`). A recursive-descent reader with explicit
fuel; `jsonLoads` supplies enough fuel for any input, so fuel exhaustion
never occurs on the concrete inputs evaluated below.
-/

def jsonWs (c : Char) : Bool := c = ' ' || c = '\t' || c = '\n' || c = '\r'

def skipWs (cs : List Char) : List Char := cs.dropWhile jsonWs

def digitsToNat (ds : List Char) : Nat :=
  ds.foldl (fun acc c => acc * 10 + (c.toNat - 48)) 0

def parseEscape (c : Char) : Option Char :=
  if c = '"' then some '"'
  else if c = '\\' then some '\\'
  else if c = '/' then some '/'
  else if c = 'n' then some '\n'
  else if c = 't' then some '\t'
  else if c = 'r' then some '\r'
  else if c = 'b' then some (Char.ofNat 8)
  else if c = 'f' then some (Char.ofNat 12)
  else none

/-- Reads the body of a JSON string literal after the opening quote,
returning the decoded characters and the input after the closing quote. -/
def parseStrBody : List Char → Option (List Char × List Char)
  | [] => none
  | c :: rest =>
    if c = '"' then some ([], rest)
    else if c = '\\' then
      match rest with
      | e :: rest2 =>
        match parseEscape e with
        | some ec => (parseStrBody rest2).map (fun r => (ec :: r.1, r.2))
        | none => none
      | [] => none
    else (parseStrBody rest).map (fun r => (c :: r.1, r.2))

def parseNum (cs : List Char) : Option (Int × List Char) :=
  match cs with
  | '-' :: rest =>
    let ds := rest.takeWhile Char.isDigit
    if ds.isEmpty then none
    else some (-(digitsToNat ds : Int), rest.dropWhile Char.isDigit)
  | _ =>
    let ds := cs.takeWhile Char.isDigit
    if ds.isEmpty then none
    else some ((digitsToNat ds : Int), cs.dropWhile Char.isDigit)

def lbrace : Char := Char.ofNat 123

def rbrace : Char := Char.ofNat 125

mutual

def parseJVal : Nat → List Char → Option (JValue × List Char)
  | 0, _ => none
  | fuel + 1, cs =>
    match cs with
    | [] => none
    | c :: rest =>
      if c = 'n' then
        if rest.take 3 = ['u', 'l', 'l'] then some (.jnull, rest.drop 3) else none
      else if c = 't' then
        if rest.take 3 = ['r', 'u', 'e'] then some (.jbool true, rest.drop 3) else none
      else if c = 'f' then
        if rest.take 4 = ['a', 'l', 's', 'e'] then some (.jbool false, rest.drop 4) else none
      else if c = '"' then
        (parseStrBody rest).map (fun r => (.jstr (String.mk r.1), r.2))
      else if c = '[' then
        match skipWs rest with
        | ']' :: rest2 => some (.jarr [], rest2)
        | cs2 => (parseArrItems fuel cs2).map (fun r => (.jarr r.1, r.2))
      else if c = lbrace then
        match skipWs rest with
        | d :: rest2 =>
          if d = rbrace then some (.jobj [], rest2)
          else (parseObjItems fuel (d :: rest2)).map (fun r => (.jobj r.1, r.2))
        | [] => none
      else if c = '-' || c.isDigit then
        (parseNum (c :: rest)).map (fun r => (.jnum r.1, r.2))
      else none

def parseArrItems : Nat → List Char → Option (List JValue × List Char)
  | 0, _ => none
  | fuel + 1, cs =>
    match parseJVal fuel cs with
    | none => none
    | some (v, rest) =>
      match skipWs rest with
      | ',' :: rest2 => (parseArrItems fuel (skipWs rest2)).map (fun r => (v :: r.1, r.2))
      | ']' :: rest2 => some ([v], rest2)
      | _ => none

def parseObjItems : Nat → List Char → Option (List (String × JValue) × List Char)
  | 0, _ => none
  | fuel + 1, cs =>
    match cs with
    | '"' :: rest =>
      match parseStrBody rest with
      | none => none
      | some (key, rest2) =>
        match skipWs rest2 with
        | ':' :: rest3 =>
          match parseJVal fuel (skipWs rest3) with
          | none => none
          | some (v, rest4) =>
            match skipWs rest4 with
            | ',' :: rest5 =>
              (parseObjItems fuel (skipWs rest5)).map
                (fun r => ((String.mk key, v) :: r.1, r.2))
            | d :: rest5 =>
              if d = rbrace then some ([(String.mk key, v)], rest5) else none
            | [] => none
        | _ => none
    | _ => none

end

/-- Python `json.loads`: read one JSON value, allowing surrounding
whitespace and requiring the whole input to be consumed; every other
input raises, modelled as `Except.error`. -/
def jsonLoads (s : String) : Except Unit JValue :=
  match parseJVal (2 * s.data.length + 2) (skipWs s.data) with
  | some (v, rest) => if skipWs rest = [] then .ok v else .error ()
  | none => .error ()

/-- Python `dict.get` on a JSON object (`user_obj.get("username")`,
`input_data.get("token")`): `none` models Python `None`. -/
def objGet (fs : List (String × JValue)) (k : String) : Option JValue :=
  (fs.find? (fun kv => kv.1 == k)).map (fun kv => kv.2)

/-!
Base64 (`base64.b64decode` / the standard encoding used to build valid
tokens). `b64decode` discards characters outside the alphabet, requires
the remaining length to be a multiple of four and allows padding only at
the end, raising `binascii.Error` otherwise.
-/

def b64Alpha : List Char :=
  "ABCDEFGHIJKLMNOPQRSTUVWXYZabcdefghijklmnopqrstuvwxyz0123456789+/".data

def b64CharOf (n : Nat) : Char := b64Alpha.getD n '?'

def sextetOf (c : Char) : Option Nat := b64Alpha.findIdx? (fun x => x = c)

def b64Keep (c : Char) : Bool := (sextetOf c).isSome || c = '='

def b64Encode : List Nat → List Char
  | [] => []
  | [x] => [b64CharOf (x / 4), b64CharOf (x % 4 * 16), '=', '=']
  | [x, y] => [b64CharOf (x / 4), b64CharOf (x % 4 * 16 + y / 16), b64CharOf (y % 16 * 4), '=']
  | x :: y :: z :: rest =>
    b64CharOf (x / 4) :: b64CharOf (x % 4 * 16 + y / 16) ::
      b64CharOf (y % 16 * 4 + z / 64) :: b64CharOf (z % 64) :: b64Encode rest

def b64Quads : List Char → Option (List Nat)
  | [] => some []
  | c1 :: c2 :: c3 :: c4 :: rest =>
    match sextetOf c1, sextetOf c2 with
    | some a, some b =>
      if c3 = '=' then
        if c4 = '=' && rest.isEmpty then some [a * 4 + b / 16] else none
      else
        match sextetOf c3 with
        | some c =>
          if c4 = '=' then
            if rest.isEmpty then some [a * 4 + b / 16, b % 16 * 16 + c / 4] else none
          else
            match sextetOf c4 with
            | some d =>
              (b64Quads rest).map
                (fun tail => (a * 4 + b / 16) :: (b % 16 * 16 + c / 4) :: (c % 4 * 64 + d) :: tail)
            | none => none
        | none => none
    | _, _ => none
  | _ => none

def b64Decode (cs : List Char) : Option (List Nat) :=
  let v := cs.filter b64Keep
  if v.length % 4 = 0 then b64Quads v else none

/-!
UTF-8 (`bytes.decode("utf-8")`, strict mode: stray continuation bytes,
overlong encodings, surrogates and out-of-range code points raise
`UnicodeDecodeError`).
-/

def utf8EncodeChar (c : Char) : List Nat :=
  let n := c.toNat
  if n < 0x80 then [n]
  else if n < 0x800 then [0xC0 + n / 64, 0x80 + n % 64]
  else if n < 0x10000 then
    [0xE0 + n / 4096, 0x80 + n / 64 % 64, 0x80 + n % 64]
  else
    [0xF0 + n / 0x40000, 0x80 + n / 4096 % 64, 0x80 + n / 64 % 64, 0x80 + n % 64]

def utf8Encode (s : String) : List Nat := s.data.flatMap utf8EncodeChar

/-- One step of strict UTF-8 decoding: reads one code point from the
front of the byte list, or fails. -/
def utf8Step : List Nat → Option (Char × List Nat)
  | [] => none
  | b1 :: rest =>
    if b1 < 0x80 then some (Char.ofNat b1, rest)
    else if b1 < 0xC2 then none
    else if b1 < 0xE0 then
      match rest with
      | b2 :: rest2 =>
        if 0x80 ≤ b2 ∧ b2 < 0xC0 then
          some (Char.ofNat ((b1 - 0xC0) * 64 + (b2 - 0x80)), rest2)
        else none
      | [] => none
    else if b1 < 0xF0 then
      match rest with
      | b2 :: b3 :: rest3 =>
        if (0x80 ≤ b2 ∧ b2 < 0xC0) ∧ (0x80 ≤ b3 ∧ b3 < 0xC0) then
          let m := (b1 - 0xE0) * 4096 + (b2 - 0x80) * 64 + (b3 - 0x80)
          if 0x800 ≤ m ∧ (m < 0xD800 ∨ 0xDFFF < m) then some (Char.ofNat m, rest3)
          else none
        else none
      | _ => none
    else if b1 < 0xF5 then
      match rest with
      | b2 :: b3 :: b4 :: rest4 =>
        if (0x80 ≤ b2 ∧ b2 < 0xC0) ∧ (0x80 ≤ b3 ∧ b3 < 0xC0) ∧ (0x80 ≤ b4 ∧ b4 < 0xC0) then
          let m := (b1 - 0xF0) * 0x40000 + (b2 - 0x80) * 4096 + (b3 - 0x80) * 64 + (b4 - 0x80)
          if 0x10000 ≤ m ∧ m < 0x110000 then some (Char.ofNat m, rest4)
          else none
        else none
      | _ => none
    else none

/-- Iterate `utf8Step` over the byte list. The fuel argument only makes
the recursion structural; one step always consumes at least one byte,
so `bs.length` fuel is enough (`utf8Decode` below supplies it). -/
def utf8DecodeLoop : Nat → List Nat → Option (List Char)
  | _, [] => some []
  | 0, _ :: _ => none
  | fuel + 1, b :: rest =>
    match utf8Step (b :: rest) with
    | some cr => (utf8DecodeLoop fuel cr.2).map (fun cs => cr.1 :: cs)
    | none => none

/-- Python `bytes.decode("utf-8")` in strict mode, producing the list
of decoded characters or failing. -/
def utf8Decode (bs : List Nat) : Option (List Char) := utf8DecodeLoop bs.length bs

/-- Python `decoded_data.split(":", 1)`: `some (before, after)` when a
colon is present (the two-element list), `none` when not (the
one-element list, rejected by the length check in the source). -/
def splitFirstColon : List Char → Option (List Char × List Char)
  | [] => none
  | c :: rest =>
    if c = ':' then some ([], rest)
    else (splitFirstColon rest).map (fun r => (c :: r.1, r.2))

/-!
The program itself (`class BasicAuth`).
-/

/-- Result record built by `handle_request` and serialized to the
response body. -/
structure AuthResult where
  active : Bool
  principal : Option String
deriving DecidableEq, Repr

def inactiveResult : AuthResult := ⟨false, none⟩

/-- Method `BasicAuth.is_config_valid` (src/func.py lines 52-59). -/
def is_config_valid (valid_users : PyDict) : Bool :=
  decide (0 < valid_users.length)

/-- Method `BasicAuth.get_user_details_from_token` (src/func.py lines
61-86): strip the `"Basic "` prefix, base64-decode, utf-8-decode, split
on the first colon. Every raised exception is caught and yields the
empty list, modelled as `none`. -/
def get_user_details_from_token (token : String) : Option (String × String) :=
  if !strStartsWith token "Basic " then none
  else
    match b64Decode (token.data.drop 6) with
    | none => none
    | some bytes =>
      match utf8Decode bytes with
      | none => none
      | some chars =>
        match splitFirstColon chars with
        | some r => some (String.mk r.1, String.mk r.2)
        | none => none

/-- One iteration of the loop in `BasicAuth.config` (src/func.py lines
37-41). A non-dict element raises `AttributeError` at `.get`; an
unhashable truthy username raises `TypeError` at the dict assignment;
an entry whose `username` or `password` is missing or falsy is skipped. -/
def configStep (d : PyDict) (user_obj : JValue) : Except Unit PyDict :=
  match user_obj with
  | .jobj fs =>
    let username := (objGet fs "username").getD .jnull
    let password := (objGet fs "password").getD .jnull
    if pyTruthy username && pyTruthy password then
      if pyHashable username then .ok (dictInsert d username password)
      else .error ()
    else .ok d
  | _ => .error ()

/-- Python `for user_obj in users_array`: arrays yield their elements,
strings yield their characters, dicts yield their keys, and the other
values raise `TypeError`. -/
def pyIter : JValue → Except Unit (List JValue)
  | .jarr xs => .ok xs
  | .jstr s => .ok (s.data.map (fun c => .jstr (String.mk [c])))
  | .jobj fs => .ok (fs.map (fun kv => .jstr kv.1))
  | _ => .error ()

/-- Body of the `try` in `BasicAuth.config` after `json.loads`
succeeded with value `v`: `valid_users.clear()` runs first, then the
loop repopulates from empty; any exception is caught and clears again.
Returns the new store and whether `logger.error` was called. -/
def configApply (v : JValue) : PyDict × Bool :=
  match pyIter v with
  | .error _ => ([], true)
  | .ok items =>
    match items.foldlM configStep ([] : PyDict) with
    | .ok d => (d, false)
    | .error _ => ([], true)

/-- Method `BasicAuth.config` (src/func.py lines 21-50), restricted to
its effect on `valid_users`: `users_config` is
`ctx.Config().get("VALID_USERS")` (`none` models an absent key). The
body runs only when the value is truthy with truthy `strip()`. Returns
the resulting store and whether `logger.error` was called. -/
def config (valid_users : PyDict) (users_config : Option String) : PyDict × Bool :=
  match users_config with
  | none => (valid_users, false)
  | some s =>
    if (pyStrip s).data.isEmpty then (valid_users, false)
    else
      match jsonLoads s with
      | .error _ => ([], true)
      | .ok v => configApply v

/-- The token-handling part of `BasicAuth.handle_request` (src/func.py
lines 121-155), after the request body produced `token` (`none` models
Python `None`). A truthy non-string token raises `AttributeError` at
`.startswith`, caught by the handler's `except`, which returns the same
inactive result. -/
def validateToken (valid_users : PyDict) (token : Option JValue) : AuthResult :=
  match token with
  | none => inactiveResult
  | some t =>
    if !pyTruthy t then inactiveResult
    else
      match t with
      | .jstr ts =>
        if !strStartsWith ts "Basic " then inactiveResult
        else
          match get_user_details_from_token ts with
          | none => inactiveResult
          | some (username, password) =>
            if username.data.isEmpty || password.data.isEmpty then inactiveResult
            else
              match dictFind valid_users (.jstr username) with
              | some v => if pyEq v (.jstr password) then ⟨true, some username⟩ else inactiveResult
              | none => inactiveResult
      | _ => inactiveResult

/-- Method `BasicAuth.handle_request` (src/func.py lines 88-163),
restricted to the `AuthResult` it serializes. `data` is the request
body (`none` models `data = None`). A body that fails to parse, or
parses to a non-object (so that `.get` raises), is caught by the
`except` and yields the inactive result. -/
def handle_request (valid_users : PyDict) (data : Option String) : AuthResult :=
  if !is_config_valid valid_users then inactiveResult
  else
    match data with
    | none => validateToken valid_users none
    | some body =>
      match jsonLoads body with
      | .error _ => inactiveResult
      | .ok (.jobj fields) => validateToken valid_users (objGet fields "token")
      | .ok _ => inactiveResult

/-- Module-level `handler` (src/func.py lines 170-185): configure
lazily when the store is empty, then delegate to `handle_request`. -/
def handler (valid_users : PyDict) (cfgText : Option String) (data : Option String) :
    PyDict × AuthResult :=
  let d := if valid_users.isEmpty then (config valid_users cfgText).1 else valid_users
  (d, handle_request d data)

/-- Helper for stating configuration claims: a well-formed user entry. -/
def mkUserEntry (e : String × String) : JValue :=
  .jobj [("username", .jstr e.1), ("password", .jstr e.2)]

/-!
Helper lemmas.
-/

theorem string_mk_data (s : String) : String.mk s.data = s := by
  cases s
  rfl

theorem isPrefixOf_append_self (a b : List Char) : a.isPrefixOf (a ++ b) = true := by
  induction a with
  | nil => simp [List.isPrefixOf]
  | cons c cs ih => simp [List.isPrefixOf, ih]

theorem splitFirstColon_append (u p : List Char) (h : ':' ∉ u) :
    splitFirstColon (u ++ ':' :: p) = some (u, p) := by
  induction u with
  | nil => simp [splitFirstColon]
  | cons c cs ih =>
    have hc : c ≠ ':' := fun hc => h (hc ▸ List.mem_cons_self c cs)
    have hcs : ':' ∉ cs := fun hm => h (List.mem_cons_of_mem c hm)
    simp [splitFirstColon, hc, ih hcs]

theorem pyEq_jstr_right {x : JValue} {a : String} (h : pyEq x (.jstr a) = true) :
    x = .jstr a := by
  cases x <;> simp [pyEq] at h
  rw [h]

theorem pyEq_jstr_jstr (a b : String) : pyEq (.jstr a) (.jstr b) = (a == b) := rfl

theorem dictFind_dictInsert_jstr (d : PyDict) (a u : String) (v : JValue) :
    dictFind (dictInsert d (.jstr a) v) (.jstr u) =
      if a = u then some v else dictFind d (.jstr u) := by
  induction d with
  | nil =>
    by_cases h : a = u <;> simp [dictInsert, dictFind, pyEq_jstr_jstr, h]
  | cons kv rest ih =>
    by_cases hk : pyEq kv.1 (.jstr a) = true
    · have hk1 : kv.1 = .jstr a := pyEq_jstr_right hk
      by_cases h : a = u
      · subst h
        simp [dictInsert, dictFind, hk, hk1, pyEq_jstr_jstr]
      · simp [dictInsert, dictFind, hk, hk1, pyEq_jstr_jstr, h]
    · by_cases hu : pyEq kv.1 (.jstr u) = true
      · have hk1 : kv.1 = .jstr u := pyEq_jstr_right hu
        have h : a ≠ u := by
          intro he
          apply hk
          rw [hk1, he, pyEq_jstr_jstr]
          exact beq_self_eq_true u
        simp [dictInsert, dictFind, hk, hu, h]
      · simp [dictInsert, dictFind, hk, hu, ih]

theorem dictFind_foldl_entries (entries : List (String × String)) (d : PyDict) (u : String) :
    dictFind (entries.foldl (fun d e => dictInsert d (.jstr e.1) (.jstr e.2)) d) (.jstr u) =
      match entries.reverse.find? (fun e => e.1 == u) with
      | some e => some (.jstr e.2)
      | none => dictFind d (.jstr u) := by
  induction entries generalizing d with
  | nil => rfl
  | cons e es ih =>
    rw [List.foldl_cons, ih, List.reverse_cons, List.find?_append]
    cases h : es.reverse.find? (fun e => e.1 == u) with
    | some r => simp [Option.or]
    | none =>
      by_cases he : e.1 = u <;>
        simp [Option.or, List.find?_cons, he, dictFind_dictInsert_jstr]

theorem sextetOf_b64CharOf : ∀ n < 64, sextetOf (b64CharOf n) = some n := by decide

theorem b64CharOf_ne_pad : ∀ n < 64, b64CharOf n ≠ '=' := by decide

theorem b64Keep_b64CharOf (n : Nat) (h : n < 64) : b64Keep (b64CharOf n) = true := by
  simp [b64Keep, sextetOf_b64CharOf n h]

theorem b64Keep_pad : b64Keep '=' = true := by decide

theorem b64Encode_spec : ∀ bs : List Nat, (∀ b ∈ bs, b < 256) →
    (b64Encode bs).filter b64Keep = b64Encode bs ∧
    (b64Encode bs).length % 4 = 0 ∧
    b64Quads (b64Encode bs) = some bs
  | [], _ => by simp [b64Encode, b64Quads]
  | [x], h => by
    have hx : x < 256 := h x (by simp)
    have h1 : x / 4 < 64 := by omega
    have h2 : x % 4 * 16 < 64 := by omega
    refine ⟨?_, by simp [b64Encode], ?_⟩
    · simp [b64Encode, List.filter_cons, b64Keep_b64CharOf _ h1, b64Keep_b64CharOf _ h2,
        b64Keep_pad]
    · simp [b64Encode, b64Quads, sextetOf_b64CharOf _ h1, sextetOf_b64CharOf _ h2]
      omega
  | [x, y], h => by
    have hx : x < 256 := h x (by simp)
    have hy : y < 256 := h y (by simp)
    have h1 : x / 4 < 64 := by omega
    have h2 : x % 4 * 16 + y / 16 < 64 := by omega
    have h3 : y % 16 * 4 < 64 := by omega
    refine ⟨?_, by simp [b64Encode], ?_⟩
    · simp [b64Encode, List.filter_cons, b64Keep_b64CharOf _ h1, b64Keep_b64CharOf _ h2,
        b64Keep_b64CharOf _ h3, b64Keep_pad]
    · simp [b64Encode, b64Quads, sextetOf_b64CharOf _ h1, sextetOf_b64CharOf _ h2,
        sextetOf_b64CharOf _ h3, b64CharOf_ne_pad _ h3]
      omega
  | x :: y :: z :: rest, h => by
    have hx : x < 256 := h x (by simp)
    have hy : y < 256 := h y (by simp)
    have hz : z < 256 := h z (by simp)
    have h1 : x / 4 < 64 := by omega
    have h2 : x % 4 * 16 + y / 16 < 64 := by omega
    have h3 : y % 16 * 4 + z / 64 < 64 := by omega
    have h4 : z % 64 < 64 := by omega
    have ih := b64Encode_spec rest (fun b hb => h b (by simp [hb]))
    obtain ⟨ihf, ihl, ihq⟩ := ih
    refine ⟨?_, ?_, ?_⟩
    · simp [b64Encode, List.filter_cons, b64Keep_b64CharOf _ h1, b64Keep_b64CharOf _ h2,
        b64Keep_b64CharOf _ h3, b64Keep_b64CharOf _ h4, ihf]
    · simp [b64Encode, List.length_cons, Nat.add_mod, ihl]
    · simp [b64Encode, b64Quads, sextetOf_b64CharOf _ h1, sextetOf_b64CharOf _ h2,
        sextetOf_b64CharOf _ h3, sextetOf_b64CharOf _ h4, b64CharOf_ne_pad _ h3,
        b64CharOf_ne_pad _ h4, ihq]
      omega

theorem b64_roundtrip (bs : List Nat) (h : ∀ b ∈ bs, b < 256) :
    b64Decode (b64Encode bs) = some bs := by
  obtain ⟨hf, hl, hq⟩ := b64Encode_spec bs h
  unfold b64Decode
  simp only [hf, hl, if_pos]
  exact hq

theorem utf8Step_one (b1 : Nat) (bs : List Nat) (h : b1 < 0x80) :
    utf8Step (b1 :: bs) = some (Char.ofNat b1, bs) := by
  simp only [utf8Step, if_pos h]

theorem utf8Step_two (b1 b2 : Nat) (bs : List Nat)
    (h1 : 0xC2 ≤ b1) (h2 : b1 < 0xE0) (h3 : 0x80 ≤ b2) (h4 : b2 < 0xC0) :
    utf8Step (b1 :: b2 :: bs) = some (Char.ofNat ((b1 - 0xC0) * 64 + (b2 - 0x80)), bs) := by
  simp only [utf8Step, if_neg (show ¬ b1 < 0x80 by omega), if_neg (show ¬ b1 < 0xC2 by omega),
    if_pos (show b1 < 0xE0 by omega), if_pos (show 0x80 ≤ b2 ∧ b2 < 0xC0 from ⟨h3, h4⟩)]

theorem utf8Step_three (b1 b2 b3 : Nat) (bs : List Nat)
    (h1 : 0xE0 ≤ b1) (h2 : b1 < 0xF0) (h3 : 0x80 ≤ b2) (h4 : b2 < 0xC0)
    (h5 : 0x80 ≤ b3) (h6 : b3 < 0xC0)
    (hm : 0x800 ≤ (b1 - 0xE0) * 4096 + (b2 - 0x80) * 64 + (b3 - 0x80) ∧
      ((b1 - 0xE0) * 4096 + (b2 - 0x80) * 64 + (b3 - 0x80) < 0xD800 ∨
        0xDFFF < (b1 - 0xE0) * 4096 + (b2 - 0x80) * 64 + (b3 - 0x80))) :
    utf8Step (b1 :: b2 :: b3 :: bs) =
      some (Char.ofNat ((b1 - 0xE0) * 4096 + (b2 - 0x80) * 64 + (b3 - 0x80)), bs) := by
  simp only [utf8Step, if_neg (show ¬ b1 < 0x80 by omega), if_neg (show ¬ b1 < 0xC2 by omega),
    if_neg (show ¬ b1 < 0xE0 by omega), if_pos (show b1 < 0xF0 by omega),
    if_pos (show (0x80 ≤ b2 ∧ b2 < 0xC0) ∧ (0x80 ≤ b3 ∧ b3 < 0xC0) from ⟨⟨h3, h4⟩, ⟨h5, h6⟩⟩),
    if_pos hm]

theorem utf8Step_four (b1 b2 b3 b4 : Nat) (bs : List Nat)
    (h1 : 0xF0 ≤ b1) (h2 : b1 < 0xF5) (h3 : 0x80 ≤ b2) (h4 : b2 < 0xC0)
    (h5 : 0x80 ≤ b3) (h6 : b3 < 0xC0) (h7 : 0x80 ≤ b4) (h8 : b4 < 0xC0)
    (hm : 0x10000 ≤ (b1 - 0xF0) * 0x40000 + (b2 - 0x80) * 4096 + (b3 - 0x80) * 64 + (b4 - 0x80) ∧
      (b1 - 0xF0) * 0x40000 + (b2 - 0x80) * 4096 + (b3 - 0x80) * 64 + (b4 - 0x80) < 0x110000) :
    utf8Step (b1 :: b2 :: b3 :: b4 :: bs) =
      some (Char.ofNat
        ((b1 - 0xF0) * 0x40000 + (b2 - 0x80) * 4096 + (b3 - 0x80) * 64 + (b4 - 0x80)), bs) := by
  simp only [utf8Step, if_neg (show ¬ b1 < 0x80 by omega), if_neg (show ¬ b1 < 0xC2 by omega),
    if_neg (show ¬ b1 < 0xE0 by omega), if_neg (show ¬ b1 < 0xF0 by omega),
    if_pos (show b1 < 0xF5 by omega),
    if_pos (show (0x80 ≤ b2 ∧ b2 < 0xC0) ∧ (0x80 ≤ b3 ∧ b3 < 0xC0) ∧ (0x80 ≤ b4 ∧ b4 < 0xC0)
      from ⟨⟨h3, h4⟩, ⟨h5, h6⟩, ⟨h7, h8⟩⟩),
    if_pos hm]

theorem char_valid_nat (c : Char) :
    c.toNat < 0xD800 ∨ (0xDFFF < c.toNat ∧ c.toNat < 0x110000) := c.valid

theorem utf8EncodeChar_ne_nil (c : Char) : utf8EncodeChar c ≠ [] := by
  simp only [utf8EncodeChar]
  split
  · simp
  · split
    · simp
    · split <;> simp

theorem utf8Step_encodeChar (c : Char) (bs : List Nat) :
    utf8Step (utf8EncodeChar c ++ bs) = some (c, bs) := by
  have hval := char_valid_nat c
  by_cases hA : c.toNat < 0x80
  · have he : utf8EncodeChar c = [c.toNat] := by
      simp only [utf8EncodeChar]
      rw [if_pos hA]
    rw [he, List.cons_append, List.nil_append]
    have hs := utf8Step_one c.toNat bs hA
    rw [Char.ofNat_toNat] at hs
    exact hs
  · by_cases hB : c.toNat < 0x800
    · have he : utf8EncodeChar c = [0xC0 + c.toNat / 64, 0x80 + c.toNat % 64] := by
        simp only [utf8EncodeChar]
        rw [if_neg hA, if_pos hB]
      rw [he]
      simp only [List.cons_append, List.nil_append]
      have hs := utf8Step_two (0xC0 + c.toNat / 64) (0x80 + c.toNat % 64) bs
        (by omega) (by omega) (by omega) (by omega)
      rw [show (0xC0 + c.toNat / 64 - 0xC0) * 64 + (0x80 + c.toNat % 64 - 0x80) = c.toNat by omega,
        Char.ofNat_toNat] at hs
      exact hs
    · by_cases hC : c.toNat < 0x10000
      · have he : utf8EncodeChar c =
            [0xE0 + c.toNat / 4096, 0x80 + c.toNat / 64 % 64, 0x80 + c.toNat % 64] := by
          simp only [utf8EncodeChar]
          rw [if_neg hA, if_neg hB, if_pos hC]
        rw [he]
        simp only [List.cons_append, List.nil_append]
        have hs := utf8Step_three (0xE0 + c.toNat / 4096) (0x80 + c.toNat / 64 % 64)
          (0x80 + c.toNat % 64) bs (by omega) (by omega) (by omega) (by omega) (by omega)
          (by omega) (by omega)
        rw [show (0xE0 + c.toNat / 4096 - 0xE0) * 4096 + (0x80 + c.toNat / 64 % 64 - 0x80) * 64
            + (0x80 + c.toNat % 64 - 0x80) = c.toNat by omega, Char.ofNat_toNat] at hs
        exact hs
      · have he : utf8EncodeChar c =
            [0xF0 + c.toNat / 0x40000, 0x80 + c.toNat / 4096 % 64, 0x80 + c.toNat / 64 % 64,
              0x80 + c.toNat % 64] := by
          simp only [utf8EncodeChar]
          rw [if_neg hA, if_neg hB, if_neg hC]
        rw [he]
        simp only [List.cons_append, List.nil_append]
        have hs := utf8Step_four (0xF0 + c.toNat / 0x40000) (0x80 + c.toNat / 4096 % 64)
          (0x80 + c.toNat / 64 % 64) (0x80 + c.toNat % 64) bs (by omega) (by omega) (by omega)
          (by omega) (by omega) (by omega) (by omega) (by omega) (by omega)
        rw [show (0xF0 + c.toNat / 0x40000 - 0xF0) * 0x40000
            + (0x80 + c.toNat / 4096 % 64 - 0x80) * 4096
            + (0x80 + c.toNat / 64 % 64 - 0x80) * 64 + (0x80 + c.toNat % 64 - 0x80) = c.toNat
          by omega, Char.ofNat_toNat] at hs
        exact hs

theorem utf8DecodeLoop_flatMap : ∀ (cs : List Char) (fuel : Nat),
    (cs.flatMap utf8EncodeChar).length ≤ fuel →
    utf8DecodeLoop fuel (cs.flatMap utf8EncodeChar) = some cs
  | [], fuel, _ => by
    rw [List.flatMap_nil]
    cases fuel <;> rfl
  | c :: cs, fuel, h => by
    rw [List.flatMap_cons] at h ⊢
    have hne := utf8EncodeChar_ne_nil c
    have hstep := utf8Step_encodeChar c (cs.flatMap utf8EncodeChar)
    cases hE : utf8EncodeChar c with
    | nil => exact absurd hE hne
    | cons b tl =>
      rw [hE] at h hstep
      rw [List.cons_append] at h hstep
      match fuel, h with
      | 0, h => simp at h
      | f + 1, h =>
        rw [List.cons_append, utf8DecodeLoop, hstep]
        have hlen : (cs.flatMap utf8EncodeChar).length ≤ f := by
          rw [List.length_cons, List.length_append] at h
          omega
        dsimp only
        rw [utf8DecodeLoop_flatMap cs f hlen]
        rfl

theorem utf8_roundtrip (s : String) : utf8Decode (utf8Encode s) = some s.data := by
  unfold utf8Decode utf8Encode
  exact utf8DecodeLoop_flatMap s.data _ (Nat.le_refl _)

theorem utf8EncodeChar_lt (c : Char) : ∀ b ∈ utf8EncodeChar c, b < 256 := by
  have hval := char_valid_nat c
  simp only [utf8EncodeChar]
  split
  · intro b hb
    fin_cases hb
    omega
  · split
    · intro b hb
      fin_cases hb <;> omega
    · split
      · intro b hb
        fin_cases hb <;> omega
      · intro b hb
        fin_cases hb <;> omega

theorem utf8Encode_lt (s : String) : ∀ b ∈ utf8Encode s, b < 256 := by
  intro b hb
  simp only [utf8Encode, List.mem_flatMap] at hb
  obtain ⟨c, _, hc⟩ := hb
  exact utf8EncodeChar_lt c b hc

theorem configStep_mkUserEntry (d : PyDict) (e : String × String)
    (h1 : e.1.data ≠ []) (h2 : e.2.data ≠ []) :
    configStep d (mkUserEntry e) = .ok (dictInsert d (.jstr e.1) (.jstr e.2)) := by
  have hu : objGet [("username", JValue.jstr e.1), ("password", JValue.jstr e.2)] "username" =
      some (JValue.jstr e.1) := rfl
  have hp : objGet [("username", JValue.jstr e.1), ("password", JValue.jstr e.2)] "password" =
      some (JValue.jstr e.2) := rfl
  simp [configStep, mkUserEntry, hu, hp, pyTruthy, pyHashable, h1, h2]

theorem configLoop_entries : ∀ (entries : List (String × String)) (d : PyDict),
    (∀ e ∈ entries, e.1.data ≠ [] ∧ e.2.data ≠ []) →
    (entries.map mkUserEntry).foldlM configStep d =
      .ok (entries.foldl (fun d e => dictInsert d (.jstr e.1) (.jstr e.2)) d)
  | [], _, _ => rfl
  | e :: es, d, h => by
    rw [List.map_cons, List.foldlM_cons,
      configStep_mkUserEntry d e (h e (by simp)).1 (h e (by simp)).2]
    show (es.map mkUserEntry).foldlM configStep _ = _
    rw [configLoop_entries es _ (fun x hx => h x (by simp [hx])), List.foldl_cons]

theorem configApply_entries (entries : List (String × String))
    (h : ∀ e ∈ entries, e.1.data ≠ [] ∧ e.2.data ≠ []) :
    configApply (.jarr (entries.map mkUserEntry)) =
      (entries.foldl (fun d e => dictInsert d (.jstr e.1) (.jstr e.2)) [], false) := by
  have hl := configLoop_entries entries [] h
  simp only [configApply, pyIter, hl]

theorem get_user_details_encode (u p : String) (hc : ':' ∉ u.data) :
    get_user_details_from_token ("Basic " ++ String.mk (b64Encode (utf8Encode (u ++ ":" ++ p)))) =
      some (u, p) := by
  have hdata : ("Basic " ++ String.mk (b64Encode (utf8Encode (u ++ ":" ++ p)))).data =
      "Basic ".data ++ b64Encode (utf8Encode (u ++ ":" ++ p)) :=
    String.data_append _ _
  have hsw : strStartsWith ("Basic " ++ String.mk (b64Encode (utf8Encode (u ++ ":" ++ p))))
      "Basic " = true := by
    rw [strStartsWith, hdata]
    exact isPrefixOf_append_self _ _
  have hlen : ("Basic ".data).length = 6 := rfl
  have hdrop : ("Basic " ++ String.mk (b64Encode (utf8Encode (u ++ ":" ++ p)))).data.drop 6 =
      b64Encode (utf8Encode (u ++ ":" ++ p)) := by
    rw [hdata, ← hlen, List.drop_left]
  have hb64 : b64Decode (b64Encode (utf8Encode (u ++ ":" ++ p))) =
      some (utf8Encode (u ++ ":" ++ p)) :=
    b64_roundtrip _ (utf8Encode_lt _)
  have hsplitdata : (u ++ ":" ++ p).data = u.data ++ ':' :: p.data := by
    rw [String.data_append, String.data_append]
    simp
  have hutf : utf8Decode (utf8Encode (u ++ ":" ++ p)) = some (u.data ++ ':' :: p.data) := by
    rw [utf8_roundtrip, hsplitdata]
  have hsc : splitFirstColon (u.data ++ ':' :: p.data) = some (u.data, p.data) :=
    splitFirstColon_append _ _ hc
  simp [get_user_details_from_token, hsw, hdrop, hb64, hutf, hsc, string_mk_data]

theorem validateToken_cases (d : PyDict) (tok : Option JValue) :
    validateToken d tok = inactiveResult ∨
      ∃ u, (dictFind d (.jstr u)).isSome ∧ validateToken d tok = ⟨true, some u⟩ := by
  unfold validateToken
  rcases tok with _ | t
  · exact Or.inl rfl
  dsimp only
  rcases t with _ | b | n | ts | xs | fs
  case jnull => exact Or.inl rfl
  case jbool => split <;> exact Or.inl rfl
  case jnum => split <;> exact Or.inl rfl
  case jarr => split <;> exact Or.inl rfl
  case jobj => split <;> exact Or.inl rfl
  case jstr =>
    by_cases hT : (!pyTruthy (JValue.jstr ts)) = true
    · rw [if_pos hT]
      exact Or.inl rfl
    · rw [if_neg hT]
      dsimp only
      by_cases hS : (!strStartsWith ts "Basic ") = true
      · rw [if_pos hS]
        exact Or.inl rfl
      · rw [if_neg hS]
        cases hg : get_user_details_from_token ts with
        | none => exact Or.inl rfl
        | some up =>
          obtain ⟨un, pw⟩ := up
          dsimp only
          by_cases hE : (un.data.isEmpty || pw.data.isEmpty) = true
          · rw [if_pos hE]
            exact Or.inl rfl
          · rw [if_neg hE]
            cases hf : dictFind d (.jstr un) with
            | none => exact Or.inl rfl
            | some v =>
              dsimp only
              by_cases hP : pyEq v (.jstr pw) = true
              · rw [if_pos hP]
                right
                exact ⟨un, by rw [hf]; rfl, rfl⟩
              · rw [if_neg hP]
                exact Or.inl rfl

theorem handle_request_cases (d : PyDict) (data : Option String) :
    handle_request d data = inactiveResult ∨
      ∃ u, (dictFind d (.jstr u)).isSome ∧ handle_request d data = ⟨true, some u⟩ := by
  unfold handle_request
  split
  · exact Or.inl rfl
  · rcases data with _ | body
    · exact validateToken_cases d none
    · dsimp only
      cases hjl : jsonLoads body with
      | error e => exact Or.inl rfl
      | ok v =>
        cases v with
        | jobj fields => exact validateToken_cases d (objGet fields "token")
        | jnull => exact Or.inl rfl
        | jbool b => exact Or.inl rfl
        | jnum n => exact Or.inl rfl
        | jstr s => exact Or.inl rfl
        | jarr xs => exact Or.inl rfl

/-!
Claim theorems.
-/

/-- C1: for every store state and every request input (absent data,
unparseable payloads, non-object payloads, wrong token types), the
modelled `handle_request` is a total function — no exception escapes;
it always returns a well-formed `AuthResult`, and on every path other
than a successful lookup that result is exactly the inactive one
`{active := false, principal := none}`. -/
theorem handle_request_total (valid_users : PyDict) (data : Option String) :
    handle_request valid_users data = inactiveResult ∨
      ∃ u, handle_request valid_users data = ⟨true, some u⟩ := by
  rcases handle_request_cases valid_users data with h | ⟨u, _, h⟩
  · exact Or.inl h
  · exact Or.inr ⟨u, h⟩

/-- C9: every `AuthResult` produced by `handle_request` satisfies the
invariant: `active = true` implies the principal is a username that is a
key of the store, and `active = false` implies the principal is `none`. -/
theorem auth_result_invariant (valid_users : PyDict) (data : Option String) :
    ((handle_request valid_users data).active = true →
      ∃ u, (handle_request valid_users data).principal = some u ∧
        (dictFind valid_users (.jstr u)).isSome) ∧
    ((handle_request valid_users data).active = false →
      (handle_request valid_users data).principal = none) := by
  rcases handle_request_cases valid_users data with h | ⟨u, hu, h⟩
  · rw [h]
    exact ⟨fun hc => (nomatch hc), fun _ => rfl⟩
  · rw [h]
    exact ⟨fun _ => ⟨u, rfl, hu⟩, fun hc => (nomatch hc)⟩

theorem auth_result_invariant_witness :
    ∃ u, (handle_request [(JValue.jstr "alice", JValue.jstr "pw1")]
        (some "\x7b\"token\":\"Basic YWxpY2U6cHcx\"\x7d")).principal = some u ∧
      (dictFind [(JValue.jstr "alice", JValue.jstr "pw1")] (.jstr u)).isSome :=
  (auth_result_invariant [(JValue.jstr "alice", JValue.jstr "pw1")]
    (some "\x7b\"token\":\"Basic YWxpY2U6cHcx\"\x7d")).1 rfl

/-- C6: when the store is invalid (`is_config_valid` false, which holds
exactly when the mapping is empty), `handle_request` returns the
inactive result for every request input, before examining the token
(the check is the first statement of the handler). -/
theorem invalid_store_inactive (valid_users : PyDict) (data : Option String) :
    (is_config_valid valid_users = false ↔ valid_users = []) ∧
    (is_config_valid valid_users = false → handle_request valid_users data = inactiveResult) := by
  constructor
  · simp [is_config_valid, List.length_eq_zero]
  · intro h
    unfold handle_request
    rw [h]
    rfl

theorem invalid_store_inactive_witness :
    is_config_valid [] = false ∧
      handle_request [] (some "\x7b\"token\":\"Basic YWxpY2U6cHcx\"\x7d") = inactiveResult :=
  ⟨rfl, (invalid_store_inactive [] (some "\x7b\"token\":\"Basic YWxpY2U6cHcx\"\x7d")).2 rfl⟩

/-- C5: an absent token, and every token string that does not start with
the exact prefix `"Basic "`, yields the inactive result. -/
theorem non_basic_token_inactive (valid_users : PyDict) (t : String)
    (h : strStartsWith t "Basic " = false) :
    validateToken valid_users none = inactiveResult ∧
      validateToken valid_users (some (.jstr t)) = inactiveResult := by
  refine ⟨rfl, ?_⟩
  simp [validateToken, h]

theorem non_basic_token_inactive_witness :
    strStartsWith "Bearer xyz" "Basic " = false ∧
      validateToken [(JValue.jstr "alice", JValue.jstr "pw1")] (some (.jstr "Bearer xyz")) =
        inactiveResult :=
  ⟨rfl, (non_basic_token_inactive [(JValue.jstr "alice", JValue.jstr "pw1")] "Bearer xyz" rfl).2⟩

/-- C10: calling `config` with an absent, empty or whitespace-only
configuration value leaves the store exactly as it was (no entry added,
removed or cleared), and logs no error. -/
theorem config_blank_preserves_store (valid_users : PyDict) (s : String) :
    config valid_users none = (valid_users, false) ∧
      ((pyStrip s).data = [] → config valid_users (some s) = (valid_users, false)) := by
  refine ⟨rfl, fun h => ?_⟩
  simp [config, h]

theorem config_blank_preserves_store_witness :
    (pyStrip "   ").data = [] ∧
      config [(JValue.jstr "alice", JValue.jstr "pw1")] (some "   ") =
        ([(JValue.jstr "alice", JValue.jstr "pw1")], false) :=
  ⟨rfl, (config_blank_preserves_store [(JValue.jstr "alice", JValue.jstr "pw1")] "   ").2 rfl⟩

/-- C7: decoding splits on the first colon only: the encoding of
`"alice:secret"` decodes back to `("alice", "secret")`, the encoding of
`"alice:sec:ret"` decodes to `("alice", "sec:ret")`, and in general
everything after the first colon (which may itself contain colons) is
the password. -/
theorem decode_first_colon_split :
    get_user_details_from_token ("Basic " ++ String.mk (b64Encode (utf8Encode "alice:secret"))) =
      some ("alice", "secret") ∧
    get_user_details_from_token ("Basic " ++ String.mk (b64Encode (utf8Encode "alice:sec:ret"))) =
      some ("alice", "sec:ret") ∧
    ∀ u p : List Char, ':' ∉ u → splitFirstColon (u ++ ':' :: p) = some (u, p) :=
  ⟨rfl, rfl, fun u p h => splitFirstColon_append u p h⟩

theorem decode_first_colon_split_witness :
    ':' ∉ "ab".data ∧
      splitFirstColon ("ab".data ++ ':' :: "cd".data) = some ("ab".data, "cd".data) :=
  ⟨by decide, decode_first_colon_split.2.2 "ab".data "cd".data (by decide)⟩

/-- C2 counterexample: the pair `("a:b", "c")` is present in the store,
yet the prescribed token `"Basic " ++ base64("a:b" ++ ":" ++ "c")` is
rejected (the split on the first colon yields username `"a"`), so the
claim's promised `{active := true, principal := some "a:b"}` is not
returned. -/
theorem store_pair_colon_username_inactive :
    validateToken [(JValue.jstr "a:b", JValue.jstr "c")]
        (some (.jstr ("Basic " ++ String.mk (b64Encode (utf8Encode ("a:b" ++ ":" ++ "c")))))) =
      inactiveResult := rfl

/-- C2 (amended): for every `(username, password)` pair present in the
store with non-empty username and password and a colon-free username,
validating the token `"Basic " ++ base64(username ++ ":" ++ password)`
returns `{active := true, principal := username}` with the exact
matched username. -/
theorem validate_store_pair_active (valid_users : PyDict) (u p : String)
    (hfind : dictFind valid_users (.jstr u) = some (.jstr p))
    (hu : u.data ≠ []) (hp : p.data ≠ []) (hc : ':' ∉ u.data) :
    validateToken valid_users
        (some (.jstr ("Basic " ++ String.mk (b64Encode (utf8Encode (u ++ ":" ++ p)))))) =
      ⟨true, some u⟩ := by
  have hg := get_user_details_encode u p hc
  have hdata := String.data_append "Basic " (String.mk (b64Encode (utf8Encode (u ++ ":" ++ p))))
  have hsw : strStartsWith ("Basic " ++ String.mk (b64Encode (utf8Encode (u ++ ":" ++ p))))
      "Basic " = true := by
    rw [strStartsWith, hdata]
    exact isPrefixOf_append_self _ _
  have hT : pyTruthy (.jstr ("Basic " ++ String.mk (b64Encode (utf8Encode (u ++ ":" ++ p))))) =
      true := by
    simp [pyTruthy, hdata]
  simp [validateToken, hT, hsw, hg, hu, hp, hfind, pyEq_jstr_jstr]

theorem validate_store_pair_active_witness :
    dictFind [(JValue.jstr "alice", JValue.jstr "pw1")] (.jstr "alice") =
        some (JValue.jstr "pw1") ∧
      validateToken [(JValue.jstr "alice", JValue.jstr "pw1")]
        (some (.jstr ("Basic " ++ String.mk (b64Encode (utf8Encode ("alice" ++ ":" ++ "pw1")))))) =
        ⟨true, some "alice"⟩ :=
  ⟨rfl, validate_store_pair_active [(JValue.jstr "alice", JValue.jstr "pw1")] "alice" "pw1" rfl
    (by decide) (by decide) (by decide)⟩

/-- C3 counterexample: `"Basic Ong="` decodes to `":x"` (empty username)
and `"Basic eDo="` decodes to `"x:"` (empty password), yet
`get_user_details_from_token` returns the split pairs rather than the
claimed empty result. -/
theorem decode_empty_username_returns_pair :
    get_user_details_from_token "Basic Ong=" = some ("", "x") ∧
      get_user_details_from_token "Basic eDo=" = some ("x", "") :=
  ⟨rfl, rfl⟩

/-- C3 (amended): `get_user_details_from_token` returns the split pair
whenever the decoded text contains a colon, even when the username or
password part is empty; the non-emptiness of both parts is enforced by
the caller `handle_request`, which returns the inactive result for such
tokens. -/
theorem empty_credentials_rejected (valid_users : PyDict) (t u p : String)
    (hg : get_user_details_from_token t = some (u, p)) (he : u.data = [] ∨ p.data = []) :
    validateToken valid_users (some (.jstr t)) = inactiveResult := by
  have hsw : strStartsWith t "Basic " = true := by
    by_contra hne
    have hf : strStartsWith t "Basic " = false := by
      cases hv : strStartsWith t "Basic "
      · rfl
      · exact absurd hv hne
    simp [get_user_details_from_token, hf] at hg
  have hT : pyTruthy (.jstr t) = true := by
    rcases hd : t.data with _ | ⟨c, cs⟩
    · rw [strStartsWith, hd] at hsw
      simp [List.isPrefixOf] at hsw
    · simp [pyTruthy, hd]
  rcases he with he | he <;> simp [validateToken, hT, hsw, hg, he]

theorem empty_credentials_rejected_witness :
    get_user_details_from_token "Basic Ong=" = some ("", "x") ∧
      validateToken [(JValue.jstr "alice", JValue.jstr "pw1")] (some (.jstr "Basic Ong=")) =
        inactiveResult :=
  ⟨rfl, empty_credentials_rejected [(JValue.jstr "alice", JValue.jstr "pw1")] "Basic Ong=" "" "x"
    rfl (Or.inl rfl)⟩

/-- C4 counterexample: the configuration string
`[{"username":"a","password":"p"},{}]` contains an entry missing both
fields, which the claim calls malformed and says must clear the store
and log an error; `config` instead loads the valid entry, keeps the
store non-empty, and logs nothing. -/
theorem config_missing_fields_not_cleared :
    config [] (some "[\x7b\"username\":\"a\",\"password\":\"p\"\x7d,\x7b\x7d]") =
      ([(JValue.jstr "a", JValue.jstr "p")], false) := rfl

/-- C4 (amended): a non-blank configuration string that fails to parse,
or parses to a non-iterable value, clears the store entirely and logs
the error; but an entry that is an object missing the `username` or
`password` field is skipped silently — the surrounding well-formed
entries are still loaded (the store is cleared before the loop, so it
never mixes stale and new entries). -/
theorem config_malformed_clears :
    (∀ (d : PyDict) (s : String), (pyStrip s).data ≠ [] → jsonLoads s = .error () →
      config d (some s) = ([], true)) ∧
    (∀ (d : PyDict) (s : String) (v : JValue), (pyStrip s).data ≠ [] → jsonLoads s = .ok v →
      pyIter v = .error () → config d (some s) = ([], true)) ∧
    (∀ u p : String, u.data ≠ [] → p.data ≠ [] →
      configApply (.jarr [mkUserEntry (u, p), .jobj []]) =
        ([(.jstr u, .jstr p)], false)) := by
  refine ⟨?_, ?_, ?_⟩
  · intro d s hs herr
    simp [config, herr, hs]
  · intro d s v hs hok hit
    simp [config, configApply, hok, hit, hs]
  · intro u p hu hp
    have h1 := configStep_mkUserEntry [] (u, p) hu hp
    simp only [configApply, pyIter, List.foldlM_cons, h1]
    rfl

theorem config_malformed_clears_witness :
    jsonLoads "oops" = Except.error () ∧ (pyStrip "oops").data ≠ [] ∧
      config [(JValue.jstr "x", JValue.jstr "y")] (some "oops") = ([], true) :=
  ⟨rfl, by decide,
    config_malformed_clears.1 [(JValue.jstr "x", JValue.jstr "y")] "oops" (by decide) rfl⟩

/-- C8: loading a well-formed sequence of entries (all fields non-empty)
populates the store so that looking up any username yields the password
of the last entry carrying that username — later duplicates overwrite
earlier ones, and every such entry is inserted (the lookup succeeds
exactly when some entry carries the username). -/
theorem config_last_write_wins (entries : List (String × String)) (u : String)
    (h : ∀ e ∈ entries, e.1.data ≠ [] ∧ e.2.data ≠ []) :
    dictFind (configApply (.jarr (entries.map mkUserEntry))).1 (.jstr u) =
      (entries.reverse.find? (fun e => e.1 == u)).map (fun e => JValue.jstr e.2) := by
  rw [configApply_entries entries h]
  dsimp only
  rw [dictFind_foldl_entries]
  cases hf : entries.reverse.find? (fun e => e.1 == u) <;> simp [dictFind]

theorem config_last_write_wins_witness :
    dictFind (config [] (some ("[\x7b\"username\":\"bob\",\"password\":\"pw1\"\x7d," ++
        "\x7b\"username\":\"bob\",\"password\":\"pw2\"\x7d]"))).1 (.jstr "bob") =
      some (JValue.jstr "pw2") := by
  rw [show (config [] (some ("[\x7b\"username\":\"bob\",\"password\":\"pw1\"\x7d," ++
      "\x7b\"username\":\"bob\",\"password\":\"pw2\"\x7d]"))).1 =
    (configApply (.jarr ([("bob", "pw1"), ("bob", "pw2")].map mkUserEntry))).1 from rfl]
  rw [config_last_write_wins [("bob", "pw1"), ("bob", "pw2")] "bob" (by decide)]
  rfl
